import Mathlib

/-!
# Verification of the TikTok popularity pipeline (`analysis_tiktok.py`)

A shallow embedding of the feature-consistency pipeline of the repository
`analysis_data_tiktok`: the categorical encoders, the hashtag/TF-IDF text
features, the temporal extraction, the popularity label, the feature
assembly, and the two inference entry points (`predict_content`,
`predict_bulk`), together with theorems settling the specified properties.

Machine reals of the source appear here as `ℚ`; the classifier
(`RandomForestClassifier`) is out of scope per the design document and is
embedded as an abstract total function parameter, matching its
fit/predict contract.  Library calls (`sklearn`, `pandas`, `re`) are
embedded from their documented behaviour, as noted on each definition.
-/

/-! ## Word characters and the regular expressions of the source

`re.findall(r"#\w+", s)` (source line 42) and the default
`TfidfVectorizer` token pattern `\w\w+` both rest on the word-character
class `\w`.  For the ASCII texts this model works with, `\w` is
alphanumerics plus underscore. -/

def isWordChar (c : Char) : Bool := c.isAlphanum || c = '_'

/-- Fuelled worker for the `#\w+` scan; the fuel (always instantiated at
the list length, which bounds the number of steps) keeps the recursion
structural. -/
def hashtagScanF : ℕ → List Char → List (List Char)
  | 0, _ => []
  | _ + 1, [] => []
  | fuel + 1, c :: rest =>
    if c = '#' then
      let run := rest.takeWhile isWordChar
      if run = [] then hashtagScanF fuel rest
      else ('#' :: run) :: hashtagScanF fuel (rest.drop run.length)
    else hashtagScanF fuel rest

/-- Python `re.findall(r"#\w+", ·)` on a character list: scan left to
right; at a `#` followed by at least one word character, emit the `#`
with the maximal word-character run and continue after the run; otherwise
advance one character. -/
def hashtagScan (cs : List Char) : List (List Char) :=
  hashtagScanF cs.length cs

/-- `re.findall(r"#\w+", s)` of source line 42, as strings. -/
def reFindallHashtag (s : String) : List String :=
  (hashtagScan s.toList).map (fun cs => String.mk cs)

/-- Source line 42: `' '.join(re.findall(r"#\w+", str(x)))`. -/
def hashtagsStr (s : String) : String :=
  String.intercalate " " (reFindallHashtag s)

/-- Whether a match of `#\w+` begins at the head of the list. -/
def startsHashtag : List Char → Bool
  | c :: d :: _ => c = '#' && isWordChar d
  | _ => false

/-- Whether a `#` followed by a word character occurs anywhere, i.e.
whether `re.findall(r"#\w+", ·)` has at least one match. -/
def hasHashtagToken : List Char → Bool
  | [] => false
  | c :: rest => startsHashtag (c :: rest) || hasHashtagToken rest

/-- Fuelled worker for the maximal word-run scan. -/
def wordRunsF : ℕ → List Char → List (List Char)
  | 0, _ => []
  | _ + 1, [] => []
  | fuel + 1, c :: rest =>
    if isWordChar c then
      let run := rest.takeWhile isWordChar
      (c :: run) :: wordRunsF fuel (rest.drop run.length)
    else wordRunsF fuel rest

/-- Maximal word-character runs of a character list, in order. -/
def wordRuns (cs : List Char) : List (List Char) :=
  wordRunsF cs.length cs

/-- The scikit-learn default analyzer: lowercase the document, then take
the tokens matching `(?u)\b\w\w+\b` — the maximal word-character runs of
length at least 2 — in order of occurrence.  Models
`TfidfVectorizer(max_features=100)`'s analyzer (source lines 44-45, 118,
146). -/
def sklearnTokenize (doc : String) : List String :=
  ((wordRuns (doc.toList.map Char.toLower)).filter
      (fun r => 2 ≤ r.length)).map
    (fun cs => String.mk cs)

/-- Code-point lexicographic order on strings: the comparison Python and
NumPy use when sorting the string values an encoder is fitted on. -/
def pyStrLe (a b : String) : Prop := a.toList ≤ b.toList

instance : DecidableRel pyStrLe := fun a b => by
  unfold pyStrLe; infer_instance

instance : IsTrans String pyStrLe :=
  ⟨fun _ _ _ h1 h2 => le_trans h1 h2⟩

instance : IsTotal String pyStrLe :=
  ⟨fun a b => le_total a.toList b.toList⟩

/-! ## The categorical encoder (`sklearn.preprocessing.LabelEncoder`)

`LabelEncoder.fit` stores `classes_ = np.unique(values)`: the sorted,
deduplicated value set; `transform` maps a value to its index in
`classes_` (by `np.searchsorted`) and raises `ValueError` on a value
outside `classes_`.  The source guards every inference-time call with
`... if str(x) in le.classes_ else -1` (lines 115-116, 137-144). -/

def labelEncoderFit (values : List String) : List String :=
  List.insertionSort pyStrLe values.dedup

/-- `LabelEncoder.transform` on one value: the index in the fitted class
list, or a raised `ValueError` on an unseen value. -/
def labelEncoderTransform1 (classes : List String) (v : String) :
    Except String ℤ :=
  if v ∈ classes then Except.ok (classes.indexOf v)
  else Except.error ("y contains previously unseen labels: " ++ v)

/-- The guarded encoding expression of source lines 115-116 and 137-144:
`le.transform([str(x)])[0] if str(x) in le.classes_ else -1`, with the
raising `transform` short-circuited by the membership guard.  Total by
construction; `encodeWithSentinel_ok` below proves the guard keeps the
raising branch of `transform` unreachable. -/
def encodeSafe (classes : List String) (x : String) : ℤ :=
  if x ∈ classes then classes.indexOf x else -1

/-- The same guarded expression with the raising `transform` left
explicit. -/
def encodeWithSentinel (classes : List String) (x : String) :
    Except String ℤ :=
  if x ∈ classes then labelEncoderTransform1 classes x else Except.ok (-1)

/-! ## The text vectorizer (`TfidfVectorizer(max_features=100)`)

`fit` builds the vocabulary: all distinct analyzer tokens of the corpus
when there are at most 100, else the 100 with the largest corpus-wide
term frequency; the retained vocabulary is indexed in sorted (lexical)
order.  `transform` maps a document to one weight per vocabulary token in
that order: the token's count in the document times the fitted positive
idf factor, then an L2 row normalisation.  The idf factors
`ln((1+n)/(1+df))+1` and the normalisation are irrational reals; both are
strictly positive scalings, so they preserve the row width and the zero
pattern of the counts, which is all any property below depends on.  The
embedding therefore carries the idf factors as an abstract `idf`
parameter of the fitted state and omits the normalisation. -/

def tfidfRankLt (toks : List String) (a b : String) : Prop :=
  toks.count b < toks.count a ∨
    (toks.count a = toks.count b ∧ pyStrLe a b)

instance (toks : List String) : DecidableRel (tfidfRankLt toks) :=
  fun _ _ => by unfold tfidfRankLt; infer_instance

/-- The fitted vocabulary of `TfidfVectorizer(max_features=100)` (source
lines 44-45): sorted distinct tokens, truncated to the 100 most frequent
when there are more (ties by lexical order). -/
def tfidfVocabFit (corpus : List String) : List String :=
  let toks := (corpus.map sklearnTokenize).flatten
  let distinct := List.insertionSort pyStrLe toks.dedup
  if distinct.length ≤ 100 then distinct
  else
    List.insertionSort pyStrLe
      ((List.insertionSort (tfidfRankLt toks) distinct).take 100)

/-- `tfidf.transform` on one document: one entry per vocabulary token, in
vocabulary order — the document's token count weighted by the fitted
(strictly positive) idf factor; `0` for any token outside the document,
and tokens outside the vocabulary contribute nothing.  (The final L2
normalisation of scikit-learn, a positive row scaling, is omitted; see
the section comment.) -/
def tfidfTransform (vocab : List String) (idf : String → ℚ)
    (doc : String) : List ℚ :=
  vocab.map (fun t => ((sklearnTokenize doc).count t : ℚ) * idf t)

/-! ## Timestamps (`pandas.to_datetime`, `.dt.hour/minute/second/dayofweek`)

The model parses the ISO-8601 profile `YYYY-MM-DD[T or space]HH:MM:SS`
(the format of the `createTimeISO` column); any other string is
unparseable.  `to_datetime` raises `ParserError` on an unparseable string
by default (training path, source line 47) and coerces it to `NaT` under
`errors='coerce'` (bulk path, line 132). -/

structure PDTimestamp where
  year : ℕ
  month : ℕ
  day : ℕ
  hour : ℕ
  minute : ℕ
  second : ℕ
deriving DecidableEq, Repr

def digitsToNat (cs : List Char) : ℕ :=
  cs.foldl (fun n c => n * 10 + (c.toNat - 48)) 0

def isLeapYear (y : ℕ) : Bool :=
  decide ((y % 4 = 0 ∧ ¬ y % 100 = 0) ∨ y % 400 = 0)

def daysInMonth (y m : ℕ) : ℕ :=
  if m = 2 then (if isLeapYear y then 29 else 28)
  else if m = 4 ∨ m = 6 ∨ m = 9 ∨ m = 11 then 30
  else 31

def parseTimeISO (s : String) : Option PDTimestamp :=
  match s.toList with
  | [y1, y2, y3, y4, '-', m1, m2, '-', d1, d2, sep,
      h1, h2, ':', n1, n2, ':', e1, e2] =>
    let digits := [y1, y2, y3, y4, m1, m2, d1, d2, h1, h2, n1, n2, e1, e2]
    let y := digitsToNat [y1, y2, y3, y4]
    let mo := digitsToNat [m1, m2]
    let d := digitsToNat [d1, d2]
    let h := digitsToNat [h1, h2]
    let mi := digitsToNat [n1, n2]
    let se := digitsToNat [e1, e2]
    if (sep = 'T' ∨ sep = ' ') ∧ (∀ c ∈ digits, c.isDigit = true) ∧
        1 ≤ mo ∧ mo ≤ 12 ∧ 1 ≤ d ∧ d ≤ daysInMonth y mo ∧
        h ≤ 23 ∧ mi ≤ 59 ∧ se ≤ 59 then
      some ⟨y, mo, d, h, mi, se⟩
    else none
  | _ => none

/-- Days in the months before month `m` of year `y`. -/
def daysBeforeMonth (y m : ℕ) : ℕ :=
  ((List.range (m - 1)).map (fun k => daysInMonth y (k + 1))).sum

/-- Rata-die day number of the date part (day 1 = 0001-01-01, a Monday,
proleptic Gregorian). -/
def rataDie (t : PDTimestamp) : ℕ :=
  365 * (t.year - 1) + (t.year - 1) / 4 - (t.year - 1) / 100 +
    (t.year - 1) / 400 + daysBeforeMonth t.year t.month + t.day

/-- `Series.dt.dayofweek`: Monday = 0 … Sunday = 6. -/
def pdDayOfWeek (t : PDTimestamp) : ℕ := (rataDie t - 1) % 7

/-- `pd.to_datetime` with the default `errors='raise'` (source line 47):
the parsed column, or the parser error of the first unparseable entry. -/
def pdToDatetimeStrict : List String → Except String (List PDTimestamp)
  | [] => Except.ok []
  | s :: rest =>
    match parseTimeISO s with
    | none => Except.error ("Unknown datetime string format: " ++ s)
    | some t =>
      match pdToDatetimeStrict rest with
      | Except.ok ts => Except.ok (t :: ts)
      | Except.error e => Except.error e

/-- `pd.to_datetime(_, errors='coerce')` (source line 132): unparseable
entries become `NaT`, embedded as `none`. -/
def pdToDatetimeCoerce (col : List String) : List (Option PDTimestamp) :=
  col.map parseTimeISO

/-! ## Training preprocessing (`preprocess_data`, source lines 32-64)

Input rows carry the columns the function touches; a `none` field is a
pandas `NaN`, removed up front by `df.dropna(inplace=True)` (line 33).
The classifier fit itself (`train_and_evaluate`) is out of scope. -/

structure RawTrainRow where
  text : Option String
  authorName : Option String
  musicName : Option String
  duration : Option ℚ
  createTimeISO : Option String
  diggCount : Option ℕ
  shareCount : Option ℕ
  commentCount : Option ℕ
  playCount : Option ℕ
deriving DecidableEq, Repr

structure TrainRow where
  text : String
  authorName : String
  musicName : String
  duration : ℚ
  createTimeISO : String
  diggCount : ℕ
  shareCount : ℕ
  commentCount : ℕ
  playCount : ℕ
deriving DecidableEq, Repr

def dropnaRow (r : RawTrainRow) : Option TrainRow :=
  match r.text, r.authorName, r.musicName, r.duration, r.createTimeISO,
      r.diggCount, r.shareCount, r.commentCount, r.playCount with
  | some t, some a, some m, some d, some c, some dg, some sh, some cm,
      some pl => some ⟨t, a, m, d, c, dg, sh, cm, pl⟩
  | _, _, _, _, _, _, _, _, _ => none

/-- `df.dropna(inplace=True)` (source line 33). -/
def dropna (rows : List RawTrainRow) : List TrainRow :=
  rows.filterMap dropnaRow

/-- Source line 56: `total_interactions = digg + share + comment + play`. -/
def totalInteractionsOf (dg sh cm pl : ℕ) : ℕ := dg + sh + cm + pl

/-- Source line 57: `is_popular = (total_interactions > 10000).astype(int)`. -/
def isPopularLabel (total : ℕ) : ℕ := if 10000 < total then 1 else 0

/-- The derived columns `preprocess_data` adds to one training row
(source lines 36-57).  `day` is `none` where `Series.map` of the day
dictionary has no key, i.e. never, since `dayofweek < 7`. -/
structure DerivedRow where
  row : TrainRow
  authorEncoded : ℕ
  musicEncoded : ℕ
  textLength : ℕ
  hashtagsText : String
  createTime : PDTimestamp
  hour : ℕ
  minute : ℕ
  second : ℕ
  day : Option String
  totalInteractions : ℕ
  isPopular : ℕ
deriving DecidableEq, Repr

/-- `days_mapping` of source line 53, as a `Series.map` dictionary. -/
def daysMapping (d : ℕ) : Option String :=
  if d = 0 then some "Senin" else if d = 1 then some "Selasa"
  else if d = 2 then some "Rabu" else if d = 3 then some "Kamis"
  else if d = 4 then some "Jumat" else if d = 5 then some "Sabtu"
  else if d = 6 then some "Minggu" else none

/-- What `preprocess_data` returns (source line 64), less the feature
matrix, which needs the fitted idf factors and is built by
`train_features` below. -/
structure TrainResult where
  rows : List DerivedRow
  leNameClasses : List String
  leMusicClasses : List String
  vocab : List String
deriving DecidableEq, Repr

def mkDerivedRow (leNameClasses leMusicClasses : List String)
    (r : TrainRow) (t : PDTimestamp) : DerivedRow :=
  { row := r
    authorEncoded := leNameClasses.indexOf r.authorName
    musicEncoded := leMusicClasses.indexOf r.musicName
    textLength := r.text.length
    hashtagsText := hashtagsStr r.text
    createTime := t
    hour := t.hour
    minute := t.minute
    second := t.second
    day := daysMapping (pdDayOfWeek t)
    totalInteractions :=
      totalInteractionsOf r.diggCount r.shareCount r.commentCount
        r.playCount
    isPopular :=
      isPopularLabel
        (totalInteractionsOf r.diggCount r.shareCount r.commentCount
          r.playCount) }

/-- `preprocess_data` (source lines 32-64): dropna, fit both label
encoders by `fit_transform`, derive `text_length` and `hashtags_str`, fit
the vectorizer on the `hashtags_str` column, parse `createTimeISO` with
the default raising `to_datetime` (line 47), derive the temporal columns
and day names, and derive the label columns.  The raised `ParserError` of
an unparseable timestamp is the `Except.error` case. -/
def preprocess_data (input : List RawTrainRow) :
    Except String TrainResult :=
  let df := dropna input
  let leNameClasses := labelEncoderFit (df.map (fun r => r.authorName))
  let leMusicClasses := labelEncoderFit (df.map (fun r => r.musicName))
  let vocab := tfidfVocabFit (df.map (fun r => hashtagsStr r.text))
  match pdToDatetimeStrict (df.map (fun r => r.createTimeISO)) with
  | Except.error e => Except.error e
  | Except.ok times =>
    Except.ok
      { rows := List.zipWith (mkDerivedRow leNameClasses leMusicClasses)
          df times
        leNameClasses := leNameClasses
        leMusicClasses := leMusicClasses
        vocab := vocab }

/-- One row of the training feature matrix (source lines 59-63): the
vectorizer block over `hashtags_str`, then the dense block
`[author_code, music_code, duration, hour, minute, second, text_length]`
in that order. -/
def trainRowFeatures (vocab : List String) (idf : String → ℚ)
    (r : DerivedRow) : List ℚ :=
  tfidfTransform vocab idf r.hashtagsText ++
    [(r.authorEncoded : ℚ), (r.musicEncoded : ℚ), r.row.duration,
      (r.hour : ℚ), (r.minute : ℚ), (r.second : ℚ), (r.textLength : ℚ)]

/-- The `hstack` feature matrix of source lines 59-63, one list per row. -/
def train_features (idf : String → ℚ) (tr : TrainResult) :
    List (List ℚ) :=
  tr.rows.map (trainRowFeatures tr.vocab idf)

/-! ## Single-record inference (`predict_content`, source lines 108-125) -/

/-- The value of `st.time_input` (source line 272): a time of day. -/
structure TimeOfDay where
  hour : ℕ
  minute : ℕ
  second : ℕ
deriving DecidableEq, Repr

/-- The fitted artifact set held in `st.session_state` after a training
run (source lines 248-251): the classifier behind its predict contract,
the vectorizer state (vocabulary and positive idf factors), and the two
encoders' class lists.  Classifier features are `Option ℚ` so that a
pandas `NaN` entry can flow through the bulk path; the single-record path
only ever passes defined entries. -/
structure Artifacts where
  clf : List (Option ℚ) → Bool
  vocab : List String
  idf : String → ℚ
  leNameClasses : List String
  leMusicClasses : List String

/-- The feature row `predict_content` assembles (source lines 118-122):
the vectorizer applied to the raw `text` — not to its hashtag
extraction — then the dense block in training order. -/
def predictContentFeatures (a : Artifacts) (text author music : String)
    (duration : ℚ) (waktu : TimeOfDay) : List (Option ℚ) :=
  (tfidfTransform a.vocab a.idf text).map some ++
    [some ((encodeSafe a.leNameClasses author : ℤ) : ℚ),
      some ((encodeSafe a.leMusicClasses music : ℤ) : ℚ),
      some duration, some (waktu.hour : ℚ), some (waktu.minute : ℚ),
      some (waktu.second : ℚ), some ((text.length : ℕ) : ℚ)]

/-- `predict_content` (source lines 108-125).  The guarded encoder calls
keep the raising `LabelEncoder.transform` inside the `Except` monad; the
classifier's 0/1 answer is the `Bool`. -/
def predict_content (a : Artifacts) (text author music : String)
    (duration : ℚ) (waktu : TimeOfDay) : Except String Bool := do
  let textLength := text.length
  let hour := waktu.hour
  let minute := waktu.minute
  let second := waktu.second
  let authorEncoded ←
    if author ∈ a.leNameClasses then
      labelEncoderTransform1 a.leNameClasses author
    else pure (-1 : ℤ)
  let musicEncoded ←
    if music ∈ a.leMusicClasses then
      labelEncoderTransform1 a.leMusicClasses music
    else pure (-1 : ℤ)
  let tfidfRow := tfidfTransform a.vocab a.idf text
  let features := tfidfRow.map some ++
    [some ((authorEncoded : ℤ) : ℚ), some ((musicEncoded : ℤ) : ℚ),
      some duration, some (hour : ℚ), some (minute : ℚ),
      some (second : ℚ), some ((textLength : ℕ) : ℚ)]
  pure (a.clf features)

/-! ## Bulk inference (`predict_bulk`, source lines 128-157)

The caller's DataFrame carries the input columns `text`,
`authorMeta.name`, `musicMeta.musicName`, `videoMeta.duration`,
`createTimeISO` plus the columns `predict_bulk` writes; a derived column
is `none` while absent.  `createTimeISO` starts as raw strings
(`Sum.inl`, an uploaded CSV) or as already-parsed datetimes (`Sum.inr`,
the manual path of source lines 297-303) and is overwritten in place by
the coercing `to_datetime` of line 132. -/

structure BulkFrame where
  text : List (Option String)
  authorName : List String
  musicName : List String
  duration : List ℚ
  createTimeISO : List String ⊕ List (Option PDTimestamp)
  textLength : Option (List ℕ)
  hour : Option (List (Option ℕ))
  minute : Option (List (Option ℕ))
  second : Option (List (Option ℕ))
  authorEncoded : Option (List ℤ)
  musicEncoded : Option (List ℤ)
  statusPopularitas : Option (List String)
deriving DecidableEq, Repr

/-- `pd.to_datetime(col, errors='coerce')` on the `createTimeISO` column:
parse raw strings with coercion to `NaT`; already-parsed datetimes pass
through. -/
def toDatetimeCoerceCol :
    List String ⊕ List (Option PDTimestamp) → List (Option PDTimestamp)
  | Sum.inl raws => pdToDatetimeCoerce raws
  | Sum.inr ps => ps

/-- Row count of the `createTimeISO` column. -/
def timeColLength : List String ⊕ List (Option PDTimestamp) → ℕ
  | Sum.inl raws => raws.length
  | Sum.inr ps => ps.length

/-- Equal length of all input columns: automatic for a pandas DataFrame,
whose columns share one index. -/
def BulkFrame.WF (df : BulkFrame) : Prop :=
  df.authorName.length = df.text.length ∧
    df.musicName.length = df.text.length ∧
    df.duration.length = df.text.length ∧
    timeColLength df.createTimeISO = df.text.length

instance (df : BulkFrame) : Decidable df.WF := by
  unfold BulkFrame.WF; infer_instance

/-- Positional read of a column entry; the default is a modelling
artifact never reached on a well-formed frame. -/
def colGet (l : List α) (i : ℕ) (d : α) : α := (l.get? i).getD d

/-- The display labels of source lines 154-156. -/
def bulkDisplayLabel (b : Bool) : String :=
  if b then "🔥 Populer" else "❄️ Tidak Populer"

/-- The per-row feature assembly of source lines 146-151: the vectorizer
over the filled raw `text` column — again not over a hashtag
extraction — `hstack`ed with the dense block in training order.  Temporal
entries of a coerced `NaT` row are pandas `NaN`, embedded as `none`. -/
def bulkFeatureRows (a : Artifacts) (df : BulkFrame) :
    List (List (Option ℚ)) :=
  let textCol := df.text.map (fun t => t.getD "")
  let parsed := toDatetimeCoerceCol df.createTimeISO
  let hourCol := parsed.map (Option.map PDTimestamp.hour)
  let minuteCol := parsed.map (Option.map PDTimestamp.minute)
  let secondCol := parsed.map (Option.map PDTimestamp.second)
  let authorCol := df.authorName.map (encodeSafe a.leNameClasses)
  let musicCol := df.musicName.map (encodeSafe a.leMusicClasses)
  let tfidfRows := textCol.map (tfidfTransform a.vocab a.idf)
  (List.range textCol.length).map (fun i =>
    (colGet tfidfRows i []).map some ++
      [some ((colGet authorCol i 0 : ℤ) : ℚ),
        some ((colGet musicCol i 0 : ℤ) : ℚ),
        some (colGet df.duration i 0),
        Option.map (fun n : ℕ => (n : ℚ)) (colGet hourCol i none),
        Option.map (fun n : ℕ => (n : ℚ)) (colGet minuteCol i none),
        Option.map (fun n : ℕ => (n : ℚ)) (colGet secondCol i none),
        some ((colGet (textCol.map String.length) i 0 : ℕ) : ℚ)])

/-- `predict_bulk` (source lines 128-157): fill and stringify `text`,
derive `text_length`, overwrite `createTimeISO` with the coerced parse,
derive the temporal columns, derive both guarded encoder columns, score
every row, and write the display label column — every step a column
mutation of the caller's frame, which is also the return value. -/
def predict_bulk (a : Artifacts) (dfInput : BulkFrame) : BulkFrame :=
  let textCol := dfInput.text.map (fun t => t.getD "")
  let df1 := { dfInput with
    text := textCol.map some
    textLength := some (textCol.map String.length) }
  let parsed := toDatetimeCoerceCol df1.createTimeISO
  let df2 := { df1 with
    createTimeISO := Sum.inr parsed
    hour := some (parsed.map (Option.map PDTimestamp.hour))
    minute := some (parsed.map (Option.map PDTimestamp.minute))
    second := some (parsed.map (Option.map PDTimestamp.second)) }
  let df3 := { df2 with
    authorEncoded :=
      some (df2.authorName.map (encodeSafe a.leNameClasses))
    musicEncoded :=
      some (df2.musicName.map (encodeSafe a.leMusicClasses)) }
  { df3 with
    statusPopularitas :=
      some (((bulkFeatureRows a dfInput).map a.clf).map bulkDisplayLabel) }

/-- A store of Python objects: `predict_bulk` receives `df_input` by
object reference, mutates the referenced frame in place, and returns the
same reference. -/
def PyHeap := ℕ → Option BulkFrame

/-- The call `predict_bulk(model, tfidf, df_input)` at reference `r`:
the heap after the in-place mutation, and the returned reference. -/
def predict_bulk_call (a : Artifacts) (h : PyHeap) (r : ℕ) :
    PyHeap × ℕ :=
  (fun i => if i = r then (h i).map (predict_bulk a) else h i, r)

/-! ## The session dispatch of `main` (source lines 259-278)

The single-record prediction section refuses to predict while no training
run has stored a model in `st.session_state` (lines 261-263). -/

inductive SingleOutcome where
  | notFitted
  | answered (b : Bool)
  | raised (e : String)
deriving DecidableEq, Repr

/-- The single-record flow of source lines 259-278: with no fitted
artifacts in the session, warn and return without predicting; otherwise
run `predict_content` on the fitted artifacts. -/
def prediksiSingle (sess : Option Artifacts) (text author music : String)
    (duration : ℚ) (waktu : TimeOfDay) : SingleOutcome :=
  match sess with
  | none => SingleOutcome.notFitted
  | some a =>
    match predict_content a text author music duration waktu with
    | Except.ok b => SingleOutcome.answered b
    | Except.error e => SingleOutcome.raised e

/-! ## A declarative characterisation of `re.findall(r"#\w+", ·)`

`HashtagMatches cs toks` holds when `toks` decomposes `cs` into
non-overlapping matches of `#\w+` in order of occurrence: token-free gaps
between the tokens, every token a `#` followed by a nonempty
word-character run, and every run maximal (the character after a token is
never a word character).  `hashtagScan` is proved to produce the unique
such `toks`. -/

inductive HashtagMatches : List Char → List (List Char) → Prop where
  | last (g : List Char) (hg : hasHashtagToken g = false) :
      HashtagMatches g []
  | more (g w rest : List Char) (toks : List (List Char))
      (hg : hasHashtagToken g = false)
      (hw : w ≠ []) (hword : ∀ c ∈ w, isWordChar c = true)
      (hmax : ∀ c ∈ rest.head?, isWordChar c = false)
      (htail : HashtagMatches rest toks) :
      HashtagMatches (g ++ '#' :: (w ++ rest)) (('#' :: w) :: toks)

/-! ## Concrete fixtures for the counterexamples and witnesses -/

/-- A fully-present raw training row. -/
def mkRaw (text author music : String) (duration : ℚ) (time : String)
    (dg sh cm pl : ℕ) : RawTrainRow :=
  ⟨some text, some author, some music, some duration, some time, some dg,
    some sh, some cm, some pl⟩

def exceptOk? : Except ε α → Option α
  | Except.ok a => some a
  | Except.error _ => none

instance {ε α : Type} [DecidableEq ε] [DecidableEq α] :
    DecidableEq (Except ε α) := fun a b =>
  match a, b with
  | Except.ok x, Except.ok y =>
    if h : x = y then isTrue (by rw [h]) else isFalse (by simp [h])
  | Except.error x, Except.error y =>
    if h : x = y then isTrue (by rw [h]) else isFalse (by simp [h])
  | Except.ok _, Except.error _ => isFalse (by simp)
  | Except.error _, Except.ok _ => isFalse (by simp)

/-- Training batch whose hashtag corpus is `#song #fyp` / `#fyp`: its
fitted vocabulary is `["fyp", "song"]`. -/
def c3TrainBatch : List RawTrainRow :=
  [mkRaw "a #song" "alice" "m1" 10 "2024-01-01T10:00:00" 1 1 1 1,
   mkRaw "b #fyp" "bob" "m2" 20 "2024-01-02T11:00:00" 20000 0 0 0]

/-- The fitted result of `c3TrainBatch` (its timestamps all parse). -/
def c3Train : TrainResult :=
  (exceptOk? (preprocess_data c3TrainBatch)).getD ⟨[], [], [], []⟩

/-- A training batch with two distinct hashtag tokens, so the fitted
vocabulary has width 2, not 100. -/
def c5TrainBatch : List RawTrainRow :=
  [mkRaw "only #aa and #bb" "a" "m" 1 "2024-01-01T00:00:00" 0 0 0 0]

/-- The fitted result of `c5TrainBatch` (its timestamps all parse). -/
def c5Train : TrainResult :=
  (exceptOk? (preprocess_data c5TrainBatch)).getD ⟨[], [], [], []⟩

/-- A training batch whose second row has an unparseable timestamp. -/
def c9Batch : List RawTrainRow :=
  [mkRaw "x #a1" "alice" "m1" 10 "2024-01-01T10:00:00" 1 1 1 1,
   mkRaw "y" "bob" "m2" 5 "31/02/banana" 2 2 2 2]

/-- A fitted artifact set for the bulk counterexamples. -/
def c4Artifacts : Artifacts :=
  ⟨fun _ => true, ["fyp"], fun _ => 1, ["alice"], ["m1"]⟩

/-- A one-row bulk frame whose timestamp is unparseable. -/
def c4Frame : BulkFrame :=
  { text := [some "hello #fyp"]
    authorName := ["alice"]
    musicName := ["m1"]
    duration := [10]
    createTimeISO := Sum.inl ["not a timestamp"]
    textLength := none
    hour := none
    minute := none
    second := none
    authorEncoded := none
    musicEncoded := none
    statusPopularitas := none }

def c10Artifacts : Artifacts :=
  ⟨fun _ => false, [], fun _ => 0, [], []⟩

/-- A one-row bulk frame with a missing `text` cell. -/
def c10Frame : BulkFrame :=
  { text := [none]
    authorName := ["bob"]
    musicName := ["m"]
    duration := [5]
    createTimeISO := Sum.inl ["2024-01-01T00:00:00"]
    textLength := none
    hour := none
    minute := none
    second := none
    authorEncoded := none
    musicEncoded := none
    statusPopularitas := none }

/-! ## Helper lemmas -/

theorem encodeWithSentinel_ok (classes : List String) (x : String) :
    encodeWithSentinel classes x = Except.ok (encodeSafe classes x) := by
  by_cases h : x ∈ classes <;>
    simp [encodeWithSentinel, encodeSafe, labelEncoderTransform1, h]

theorem labelEncoderFit_sorted (values : List String) :
    (labelEncoderFit values).Sorted pyStrLe :=
  List.sorted_insertionSort _ _

theorem labelEncoderFit_nodup (values : List String) :
    (labelEncoderFit values).Nodup :=
  ((List.perm_insertionSort _ _).nodup_iff).mpr values.nodup_dedup

theorem mem_labelEncoderFit {values : List String} {x : String} :
    x ∈ labelEncoderFit values ↔ x ∈ values := by
  unfold labelEncoderFit
  rw [(List.perm_insertionSort _ _).mem_iff, List.mem_dedup]

theorem nodup_indexOf_getElem {l : List String} (hnd : l.Nodup) (i : ℕ)
    (hi : i < l.length) : l.indexOf l[i] = i := by
  have hmem : l[i] ∈ l := List.getElem_mem hi
  have hlt : l.indexOf l[i] < l.length := List.indexOf_lt_length.mpr hmem
  have := List.getElem_indexOf (a := l[i]) (l := l) hlt
  exact (List.Nodup.getElem_inj_iff hnd).mp this

theorem tfidfTransform_length (vocab : List String) (idf : String → ℚ)
    (doc : String) :
    (tfidfTransform vocab idf doc).length = vocab.length :=
  List.length_map _ _

theorem tfidfVocabFit_length (corpus : List String) :
    (tfidfVocabFit corpus).length =
      min ((corpus.map sklearnTokenize).flatten.dedup.length) 100 := by
  unfold tfidfVocabFit
  set toks := (corpus.map sklearnTokenize).flatten with htoks
  have hlen : (List.insertionSort pyStrLe toks.dedup).length =
      toks.dedup.length := List.length_insertionSort _ _
  by_cases h : (List.insertionSort pyStrLe toks.dedup).length ≤ 100
  · simp only [h, if_pos]
    omega
  · simp only [h, if_neg, not_false_iff]
    rw [List.length_insertionSort, List.length_take,
      List.length_insertionSort]
    omega

theorem pdToDatetimeStrict_ok_length {col : List String}
    {ts : List PDTimestamp} (h : pdToDatetimeStrict col = Except.ok ts) :
    ts.length = col.length := by
  induction col generalizing ts with
  | nil => simp [pdToDatetimeStrict] at h; simp [← h]
  | cons s rest ih =>
    simp only [pdToDatetimeStrict] at h
    cases hp : parseTimeISO s with
    | none => rw [hp] at h; exact absurd h (by simp)
    | some t =>
      rw [hp] at h
      cases hr : pdToDatetimeStrict rest with
      | error e => rw [hr] at h; exact absurd h (by simp)
      | ok ts2 =>
        rw [hr] at h
        cases h
        simp [ih hr]

theorem pdToDatetimeStrict_error_of_mem {col : List String} {s : String}
    (hs : s ∈ col) (hp : parseTimeISO s = none) :
    ∃ e, pdToDatetimeStrict col = Except.error e := by
  induction col with
  | nil => cases hs
  | cons a rest ih =>
    rcases List.mem_cons.mp hs with rfl | hmem
    · exact ⟨"Unknown datetime string format: " ++ s,
        by simp [pdToDatetimeStrict, hp]⟩
    · cases hpa : parseTimeISO a with
      | none => exact ⟨"Unknown datetime string format: " ++ a,
          by simp [pdToDatetimeStrict, hpa]⟩
      | some t =>
        obtain ⟨e, he⟩ := ih hmem
        exact ⟨e, by simp [pdToDatetimeStrict, hpa, he]⟩

theorem predict_content_eq (a : Artifacts) (text author music : String)
    (duration : ℚ) (waktu : TimeOfDay) :
    predict_content a text author music duration waktu =
      Except.ok (a.clf (predictContentFeatures a text author music
        duration waktu)) := by
  by_cases ha : author ∈ a.leNameClasses <;>
    by_cases hm : music ∈ a.leMusicClasses <;>
      simp [predict_content, predictContentFeatures,
        labelEncoderTransform1, encodeSafe, ha, hm, bind, Except.bind,
        pure, Except.pure]

theorem hashtagScanF_congr : ∀ (f1 f2 : ℕ) (cs : List Char),
    cs.length ≤ f1 → cs.length ≤ f2 →
    hashtagScanF f1 cs = hashtagScanF f2 cs := by
  intro f1
  induction f1 with
  | zero =>
    intro f2 cs h1 _
    have hnil : cs = [] := List.eq_nil_of_length_eq_zero (Nat.le_zero.mp h1)
    subst hnil
    cases f2 <;> rfl
  | succ f ih =>
    intro f2 cs h1 h2
    cases cs with
    | nil => cases f2 <;> rfl
    | cons c rest =>
      cases f2 with
      | zero => simp at h2
      | succ g =>
        simp only [List.length_cons, Nat.succ_le_succ_iff] at h1 h2
        simp only [hashtagScanF]
        by_cases hc : c = '#'
        · simp only [hc, if_pos]
          by_cases hr : rest.takeWhile isWordChar = []
          · simp only [hr, if_pos]
            exact ih g rest h1 h2
          · simp only [hr, if_neg, not_false_iff]
            have hd : (rest.drop
                (rest.takeWhile isWordChar).length).length ≤ rest.length := by
              simp [List.length_drop]
            exact congrArg _ (ih g _ (le_trans hd h1) (le_trans hd h2))
        · simp only [hc, if_neg, not_false_iff]
          exact ih g rest h1 h2

theorem hashtagScan_cons (c : Char) (rest : List Char) :
    hashtagScan (c :: rest) =
      if c = '#' then
        if rest.takeWhile isWordChar = [] then hashtagScan rest
        else ('#' :: rest.takeWhile isWordChar) ::
          hashtagScan (rest.drop (rest.takeWhile isWordChar).length)
      else hashtagScan rest := by
  show hashtagScanF (rest.length + 1) (c :: rest) = _
  simp only [hashtagScanF]
  by_cases hc : c = '#'
  · simp only [hc, if_pos]
    by_cases hr : rest.takeWhile isWordChar = []
    · simp [hr, hashtagScan]
    · simp only [hr, if_neg, not_false_iff]
      have hd : (rest.drop
          (rest.takeWhile isWordChar).length).length ≤ rest.length := by
        simp [List.length_drop]
      exact congrArg _ (hashtagScanF_congr rest.length _ _ hd (le_refl _))
  · simp [hc, hashtagScan]

theorem hasHashtagToken_cons_false {c : Char} {t : List Char}
    (h : hasHashtagToken (c :: t) = false) : hasHashtagToken t = false := by
  simp only [hasHashtagToken, Bool.or_eq_false_iff] at h
  exact h.2

theorem startsHashtag_cons_false {c : Char} {t : List Char}
    (h : hasHashtagToken (c :: t) = false) :
    startsHashtag (c :: t) = false := by
  simp only [hasHashtagToken, Bool.or_eq_false_iff] at h
  exact h.1

theorem startsHashtag_of_ne {c : Char} (hc : ¬ c = '#')
    (rest : List Char) : startsHashtag (c :: rest) = false := by
  cases rest <;> simp [startsHashtag, hc]

theorem takeWhile_eq_nil_of_head {l : List Char}
    (h : ∀ c ∈ l.head?, isWordChar c = false) :
    l.takeWhile isWordChar = [] := by
  cases l with
  | nil => rfl
  | cons a t =>
    have ha : isWordChar a = false := h a (by simp)
    simp [List.takeWhile_cons, ha]

theorem head_not_word_of_takeWhile_eq_nil {l : List Char}
    (h : l.takeWhile isWordChar = []) :
    ∀ c ∈ l.head?, isWordChar c = false := by
  intro c hc
  cases l with
  | nil => cases hc
  | cons a t =>
    simp only [List.head?_cons, Option.mem_some_iff] at hc
    subst hc
    by_cases ha : isWordChar a = true
    · rw [List.takeWhile_cons, if_pos ha] at h; cases h
    · simpa using ha

theorem takeWhile_word_append {w rest : List Char}
    (hword : ∀ c ∈ w, isWordChar c = true)
    (hmax : ∀ c ∈ rest.head?, isWordChar c = false) :
    (w ++ rest).takeWhile isWordChar = w := by
  induction w with
  | nil => exact takeWhile_eq_nil_of_head hmax
  | cons a t ih =>
    have ha : isWordChar a = true := hword a (by simp)
    simp only [List.cons_append, List.takeWhile_cons, ha, if_pos]
    rw [ih (fun c hc => hword c (by simp [hc]))]

theorem drop_length_takeWhile (p : Char → Bool) (l : List Char) :
    l.drop (l.takeWhile p).length = l.dropWhile p := by
  induction l with
  | nil => rfl
  | cons a t ih =>
    by_cases h : p a <;>
      simp [List.takeWhile_cons, List.dropWhile_cons, h, ih]

theorem head_dropWhile_false (l : List Char) :
    ∀ c ∈ (l.dropWhile isWordChar).head?, isWordChar c = false := by
  intro c hc
  have hnot := List.head?_dropWhile_not isWordChar l
  cases hh : (l.dropWhile isWordChar).head? with
  | none => rw [hh] at hc; cases hc
  | some x =>
    rw [hh] at hc hnot
    simp only [Option.mem_some_iff] at hc
    subst hc
    exact hnot

theorem hashtagScan_eq_nil {cs : List Char}
    (h : hasHashtagToken cs = false) : hashtagScan cs = [] := by
  induction cs with
  | nil => rfl
  | cons c rest ih =>
    have ht : hasHashtagToken rest = false := hasHashtagToken_cons_false h
    rw [hashtagScan_cons]
    by_cases hc : c = '#'
    · subst hc
      have hrun : rest.takeWhile isWordChar = [] := by
        apply takeWhile_eq_nil_of_head
        intro d hd
        cases rest with
        | nil => cases hd
        | cons e t =>
          simp only [List.head?_cons, Option.mem_some_iff] at hd
          subst hd
          have hs := startsHashtag_cons_false h
          simpa [startsHashtag] using hs
      simp [hrun, ih ht]
    · simp [hc, ih ht]

theorem hashtagScan_gap_append {g w rest : List Char}
    (hg : hasHashtagToken g = false) (hw : w ≠ [])
    (hword : ∀ c ∈ w, isWordChar c = true)
    (hmax : ∀ c ∈ rest.head?, isWordChar c = false) :
    hashtagScan (g ++ '#' :: (w ++ rest)) =
      ('#' :: w) :: hashtagScan rest := by
  induction g with
  | nil =>
    have hrun : (w ++ rest).takeWhile isWordChar = w :=
      takeWhile_word_append hword hmax
    have hdrop : (w ++ rest).drop w.length = rest := List.drop_left w rest
    rw [List.nil_append, hashtagScan_cons]
    simp [hrun, hw, hdrop]
  | cons c g2 ih =>
    have hg2 : hasHashtagToken g2 = false := hasHashtagToken_cons_false hg
    rw [List.cons_append, hashtagScan_cons]
    by_cases hc : c = '#'
    · subst hc
      have hhead :
          ∀ d ∈ (g2 ++ '#' :: (w ++ rest)).head?, isWordChar d = false := by
        intro d hd
        cases g2 with
        | nil =>
          simp only [List.nil_append, List.head?_cons,
            Option.mem_some_iff] at hd
          subst hd
          decide
        | cons e t =>
          simp only [List.cons_append, List.head?_cons,
            Option.mem_some_iff] at hd
          subst hd
          have hs := startsHashtag_cons_false hg
          simpa [startsHashtag] using hs
      have hrun : (g2 ++ '#' :: (w ++ rest)).takeWhile isWordChar = [] :=
        takeWhile_eq_nil_of_head hhead
      simp [hrun, ih hg2]
    · simp [hc, ih hg2]

theorem matches_cons {c : Char} {rest : List Char}
    {toks : List (List Char)}
    (hc : startsHashtag (c :: rest) = false)
    (h : HashtagMatches rest toks) : HashtagMatches (c :: rest) toks := by
  cases h with
  | last hg =>
    exact HashtagMatches.last (c :: rest)
      (by simp_all [hasHashtagToken])
  | more g w rest2 toks2 hg hw hword hmax htail =>
    have hcg : startsHashtag (c :: g) = false := by
      cases g with
      | nil => rfl
      | cons e t =>
        simp only [List.cons_append] at hc
        simpa [startsHashtag] using (by simpa [startsHashtag] using hc)
    have hgc : hasHashtagToken (c :: g) = false := by
      simp [hasHashtagToken, hcg, hg]
    have hmm := HashtagMatches.more (c :: g) w rest2 toks2 hgc hw hword
      hmax htail
    simpa using hmm

theorem hashtagScan_matches (cs : List Char) :
    HashtagMatches cs (hashtagScan cs) := by
  generalize hn : cs.length = n
  induction n using Nat.strong_induction_on generalizing cs with
  | _ n ih =>
    cases cs with
    | nil => exact HashtagMatches.last [] rfl
    | cons c rest =>
      subst hn
      rw [hashtagScan_cons]
      by_cases hc : c = '#'
      · subst hc
        by_cases hr : rest.takeWhile isWordChar = []
        · simp only [if_pos, hr, if_pos rfl]
          refine matches_cons ?_ (ih rest.length (by simp) rest rfl)
          cases rest with
          | nil => rfl
          | cons e t =>
            have he := head_not_word_of_takeWhile_eq_nil hr e (by simp)
            simp [startsHashtag, he]
        · simp only [if_pos rfl, hr, if_neg, not_false_iff]
          have hword : ∀ d ∈ rest.takeWhile isWordChar,
              isWordChar d = true :=
            fun d hd => List.mem_takeWhile_imp hd
          have hmax : ∀ d ∈ (rest.drop
              (rest.takeWhile isWordChar).length).head?,
              isWordChar d = false := by
            rw [drop_length_takeWhile]
            exact head_dropWhile_false rest
          have hsplit : rest.takeWhile isWordChar ++
              rest.drop (rest.takeWhile isWordChar).length = rest := by
            rw [drop_length_takeWhile]
            exact List.takeWhile_append_dropWhile isWordChar rest
          have hlt : (rest.drop
              (rest.takeWhile isWordChar).length).length <
              ('#' :: rest).length := by
            simp [List.length_drop]
            omega
          have ihd := ih _ hlt (rest.drop
            (rest.takeWhile isWordChar).length) rfl
          have hmm := HashtagMatches.more [] (rest.takeWhile isWordChar)
            (rest.drop (rest.takeWhile isWordChar).length)
            (hashtagScan (rest.drop
              (rest.takeWhile isWordChar).length)) rfl hr hword hmax ihd
          rw [List.nil_append, hsplit] at hmm
          exact hmm
      · simp only [hc, if_neg, not_false_iff]
        exact matches_cons (startsHashtag_of_ne hc rest)
          (ih rest.length (by simp) rest rfl)

theorem matches_unique {cs : List Char} {toks : List (List Char)}
    (h : HashtagMatches cs toks) : toks = hashtagScan cs := by
  induction h with
  | last g hg => exact (hashtagScan_eq_nil hg).symm
  | more g w rest toks hg hw hword hmax htail ih =>
    rw [hashtagScan_gap_append hg hw hword hmax, ih]

theorem mem_zipWith {f : α → β → γ} {l1 : List α} {l2 : List β} {x : γ}
    (h : x ∈ List.zipWith f l1 l2) : ∃ a b, x = f a b := by
  induction l1 generalizing l2 with
  | nil => cases h
  | cons a t ih =>
    cases l2 with
    | nil => cases h
    | cons b t2 =>
      rcases List.mem_cons.mp h with rfl | hmem
      · exact ⟨a, b, rfl⟩
      · exact ih hmem

theorem preprocess_data_ok {input : List RawTrainRow} {tr : TrainResult}
    (h : preprocess_data input = Except.ok tr) :
    ∃ times,
      pdToDatetimeStrict ((dropna input).map (fun r => r.createTimeISO)) =
        Except.ok times ∧
      tr.rows = List.zipWith
        (mkDerivedRow
          (labelEncoderFit ((dropna input).map (fun r => r.authorName)))
          (labelEncoderFit ((dropna input).map (fun r => r.musicName))))
        (dropna input) times ∧
      tr.vocab =
        tfidfVocabFit ((dropna input).map (fun r => hashtagsStr r.text)) := by
  simp only [preprocess_data] at h
  cases hp : pdToDatetimeStrict ((dropna input).map
      (fun r => r.createTimeISO)) with
  | error e => rw [hp] at h; cases h
  | ok times =>
    rw [hp] at h
    cases h
    exact ⟨times, rfl, rfl, rfl⟩

/-- Claim C2: the derived label `is_popular` is `1` exactly when the sum
of the four engagement counters strictly exceeds 10000, a sum of exactly
10000 yielding `0`; and every row `preprocess_data` derives carries this
label of its own counters. -/
theorem c2_threshold :
    (∀ l s c p : ℕ,
      (isPopularLabel (totalInteractionsOf l s c p) = 1 ↔
        10000 < l + s + c + p) ∧
      (l + s + c + p = 10000 →
        isPopularLabel (totalInteractionsOf l s c p) = 0)) ∧
    (∀ input tr, preprocess_data input = Except.ok tr →
      ∀ r ∈ tr.rows,
        r.isPopular = isPopularLabel (totalInteractionsOf r.row.diggCount
          r.row.shareCount r.row.commentCount r.row.playCount) ∧
        r.totalInteractions = r.row.diggCount + r.row.shareCount +
          r.row.commentCount + r.row.playCount) := by
  constructor
  · intro l s c p
    constructor
    · constructor
      · intro h1
        by_contra hno
        simp [isPopularLabel, totalInteractionsOf, hno] at h1
      · intro hgt
        simp [isPopularLabel, totalInteractionsOf, hgt]
    · intro heq
      simp [isPopularLabel, totalInteractionsOf, heq]
  · intro input tr h r hr
    obtain ⟨times, _, hrows, _⟩ := preprocess_data_ok h
    rw [hrows] at hr
    obtain ⟨a, b, rfl⟩ := mem_zipWith hr
    exact ⟨rfl, rfl⟩

/-- Witness for C2 at the specified example counters: sum 10000 is not
popular, sum 10001 is. -/
theorem c2_threshold_witness :
    isPopularLabel (totalInteractionsOf 3000 2000 1000 4000) = 0 ∧
    isPopularLabel (totalInteractionsOf 3000 2000 1000 4001) = 1 :=
  ⟨(c2_threshold.1 3000 2000 1000 4000).2 rfl,
   (c2_threshold.1 3000 2000 1000 4001).1.mpr (by decide)⟩

/-- Claim C6: fitting a categorical encoder on any finite list of strings
yields the sorted (code-point lexicographic), deduplicated class list —
a bijection between the observed value set and the codes `0..K-1`, the
code of the `i`-th sorted class being `i` — and on the `["alice","bob"]`
example the fitted transform maps alice to 0, bob to 1 and the unseen
carol to -1. -/
theorem c6_encoder_fit_bijection :
    (∀ values : List String,
      (labelEncoderFit values).Sorted pyStrLe ∧
      (labelEncoderFit values).Nodup ∧
      (∀ x, x ∈ labelEncoderFit values ↔ x ∈ values) ∧
      (∀ i (hi : i < (labelEncoderFit values).length),
        encodeSafe (labelEncoderFit values)
          ((labelEncoderFit values).get ⟨i, hi⟩) = (i : ℤ))) ∧
    encodeSafe (labelEncoderFit ["alice", "bob"]) "alice" = 0 ∧
    encodeSafe (labelEncoderFit ["alice", "bob"]) "bob" = 1 ∧
    encodeSafe (labelEncoderFit ["alice", "bob"]) "carol" = -1 := by
  refine ⟨fun values => ⟨labelEncoderFit_sorted values,
    labelEncoderFit_nodup values, fun x => mem_labelEncoderFit, ?_⟩,
    by decide, by decide, by decide⟩
  intro i hi
  have hx : (labelEncoderFit values).get ⟨i, hi⟩ ∈ labelEncoderFit values :=
    List.get_mem _ _ hi
  rw [encodeSafe, if_pos hx, List.get_eq_getElem]
  rw [nodup_indexOf_getElem (labelEncoderFit_nodup values) i hi]

/-- Witness for C6 applied at the example encoder and index 1. -/
theorem c6_encoder_witness :
    encodeSafe (labelEncoderFit ["alice", "bob"])
      ((labelEncoderFit ["alice", "bob"]).get ⟨1, by decide⟩) = 1 :=
  (c6_encoder_fit_bijection.1 ["alice", "bob"]).2.2.2 1 (by decide)

/-- Claim C7: hashtag extraction returns exactly the matches of `#\w+`
in order of occurrence joined by single spaces — the extracted token list
is the unique decomposition of the text into maximal hash-prefixed word
runs (`HashtagMatches`), the result is empty when no such token occurs,
and the `"great song #fyp #dance"` example yields `"#fyp #dance"`. -/
theorem c7_hashtag_extraction :
    (∀ s : String,
      HashtagMatches s.toList ((reFindallHashtag s).map String.toList) ∧
      (∀ toks, HashtagMatches s.toList toks →
        toks = (reFindallHashtag s).map String.toList) ∧
      hashtagsStr s = String.intercalate " " (reFindallHashtag s) ∧
      (hasHashtagToken s.toList = false → hashtagsStr s = "")) ∧
    hashtagsStr "great song #fyp #dance" = "#fyp #dance" := by
  have key : ∀ s : String,
      (reFindallHashtag s).map String.toList = hashtagScan s.toList := by
    intro s
    unfold reFindallHashtag
    rw [List.map_map]
    have hid : (String.toList ∘ fun cs => String.mk cs) =
        (id : List Char → List Char) := by
      funext cs; rfl
    rw [hid, List.map_id]
  refine ⟨fun s => ⟨?_, ?_, rfl, ?_⟩, by decide⟩
  · rw [key]; exact hashtagScan_matches s.toList
  · intro toks htoks
    rw [key]
    exact matches_unique htoks
  · intro hnone
    have hscan : hashtagScan s.toList = [] := hashtagScan_eq_nil hnone
    unfold hashtagsStr reFindallHashtag
    rw [hscan]
    rfl

/-- Witness for C7: a hashtag-free text extracts to the empty string. -/
theorem c7_hashtag_witness : hashtagsStr "no tags here" = "" ∧
    hashtagsStr "great song #fyp #dance" = "#fyp #dance" :=
  ⟨(c7_hashtag_extraction.1 "no tags here").2.2.2 (by decide),
    c7_hashtag_extraction.2⟩

/-- Claim C8: with no training run stored in the session, the
single-record prediction section stops with the explicit not-fitted
outcome and produces no prediction; once a fitted artifact set exists,
`predict_content` always returns a prediction — never an error — whatever
the author or music strings are. -/
theorem c8_not_fitted_guard :
    (∀ text author music duration waktu,
      prediksiSingle none text author music duration waktu =
        SingleOutcome.notFitted) ∧
    (∀ a text author music duration waktu, ∃ b : Bool,
      prediksiSingle (some a) text author music duration waktu =
        SingleOutcome.answered b) := by
  refine ⟨fun _ _ _ _ _ => rfl,
    fun a text author music duration waktu => ?_⟩
  refine ⟨a.clf (predictContentFeatures a text author music duration
    waktu), ?_⟩
  simp [prediksiSingle, predict_content_eq]

/-- Claim C1: the guarded inference-time encoder transform (the exact
expression of `predict_content` lines 115-116 and of the per-row lambdas
of `predict_bulk` lines 137-144) never raises — the membership guard
keeps the raising `LabelEncoder.transform` branch on the `ok` path; it
returns the sentinel `-1` on every string outside the fitting corpus and
the fitted code (the position in the fitted class list, which indexes the
string itself) on every string of the corpus; `predict_content` is
therefore total, and `predict_bulk` writes both encoded columns by
applying this transform to every row. -/
theorem c1_unseen_category_sentinel :
    (∀ classes x, encodeWithSentinel classes x =
        Except.ok (encodeSafe classes x)) ∧
    (∀ values x, x ∉ values →
        encodeSafe (labelEncoderFit values) x = -1) ∧
    (∀ values x, x ∈ values →
        encodeSafe (labelEncoderFit values) x =
          ((labelEncoderFit values).indexOf x : ℤ) ∧
        (labelEncoderFit values).get?
          ((labelEncoderFit values).indexOf x) = some x) ∧
    (∀ a text author music duration waktu, ∃ b : Bool,
        predict_content a text author music duration waktu =
          Except.ok b) ∧
    (∀ a df, (predict_bulk a df).authorEncoded =
        some (df.authorName.map (encodeSafe a.leNameClasses)) ∧
      (predict_bulk a df).musicEncoded =
        some (df.musicName.map (encodeSafe a.leMusicClasses))) := by
  refine ⟨encodeWithSentinel_ok, ?_, ?_, ?_, ?_⟩
  · intro values x hx
    have hmem : x ∉ labelEncoderFit values :=
      fun hc => hx (mem_labelEncoderFit.mp hc)
    simp [encodeSafe, hmem]
  · intro values x hx
    have hmem : x ∈ labelEncoderFit values := mem_labelEncoderFit.mpr hx
    exact ⟨by simp [encodeSafe, hmem], List.indexOf_get? hmem⟩
  · intro a text author music duration waktu
    exact ⟨a.clf (predictContentFeatures a text author music duration
      waktu), predict_content_eq a text author music duration waktu⟩
  · intro a df
    exact ⟨rfl, rfl⟩

/-- Witness for C1 at the fitted corpus `["alice", "bob"]`: the unseen
carol maps to -1, the seen alice maps to its fitted code. -/
theorem c1_unseen_category_witness :
    encodeSafe (labelEncoderFit ["alice", "bob"]) "carol" = -1 ∧
    encodeSafe (labelEncoderFit ["alice", "bob"]) "alice" =
      ((labelEncoderFit ["alice", "bob"]).indexOf "alice" : ℤ) :=
  ⟨c1_unseen_category_sentinel.2.1 ["alice", "bob"] "carol" (by decide),
   (c1_unseen_category_sentinel.2.2.1 ["alice", "bob"] "alice"
     (by decide)).1⟩

/-- Claim C10: `predict_bulk` works in place on the caller's frame —
the call through a Python reference returns the same reference, whose
cell now holds the transformed frame, every other cell untouched; the
transformation overwrites the `text` column (every cell a string, the
missing ones filled) and the `createTimeISO` column (now parsed
datetimes) and populates the `text_length`, temporal, encoded-category
and `status_popularitas` columns; and on a concrete frame the caller's
input is visibly changed. -/
theorem c10_bulk_mutates_in_place :
    (∀ a h r, (predict_bulk_call a h r).2 = r ∧
      (predict_bulk_call a h r).1 r = (h r).map (predict_bulk a) ∧
      ∀ i, i ≠ r → (predict_bulk_call a h r).1 i = h i) ∧
    (∀ a df,
      (predict_bulk a df).textLength ≠ none ∧
      (predict_bulk a df).hour ≠ none ∧
      (predict_bulk a df).minute ≠ none ∧
      (predict_bulk a df).second ≠ none ∧
      (predict_bulk a df).authorEncoded ≠ none ∧
      (predict_bulk a df).musicEncoded ≠ none ∧
      (predict_bulk a df).statusPopularitas ≠ none ∧
      (∃ ps, (predict_bulk a df).createTimeISO = Sum.inr ps) ∧
      (∀ t ∈ (predict_bulk a df).text, t ≠ none)) ∧
    predict_bulk c10Artifacts c10Frame ≠ c10Frame := by
  refine ⟨?_, ?_, by decide⟩
  · intro a h r
    refine ⟨rfl, by simp [predict_bulk_call], ?_⟩
    intro i hi
    simp [predict_bulk_call, hi]
  · intro a df
    refine ⟨by simp [predict_bulk], by simp [predict_bulk],
      by simp [predict_bulk], by simp [predict_bulk],
      by simp [predict_bulk], by simp [predict_bulk],
      by simp [predict_bulk],
      ⟨toDatetimeCoerceCol df.createTimeISO, by simp [predict_bulk]⟩, ?_⟩
    intro t ht
    simp only [predict_bulk] at ht
    simp only [List.mem_map] at ht
    obtain ⟨u, _, rfl⟩ := ht
    simp

/-- Witness for C10: the heap cell at an unrelated reference is
untouched, and no `text` cell of the transformed concrete frame is
missing. -/
theorem c10_bulk_witness :
    (predict_bulk_call c10Artifacts (fun _ => some c10Frame) 0).1 1 =
      some c10Frame ∧
    some "" ≠ (none : Option String) :=
  ⟨(c10_bulk_mutates_in_place.1 c10Artifacts (fun _ => some c10Frame)
      0).2.2 1 (by decide),
   (c10_bulk_mutates_in_place.2.1 c10Artifacts c10Frame).2.2.2.2.2.2.2.2
     (some "") (by decide)⟩

/-- Claim C3 (divergence witnessed): with the vectorizer fitted on the
hashtag corpus of `c3TrainBatch` (vocabulary `["fyp", "song"]`),
single-record inference assembles its text block by applying the fitted
vectorizer to the raw text — the text block of
`predictContentFeatures` is `tfidf.transform` of the raw record text —
and for the record `"great song #fyp"` that block differs from the
vector training derives for the very same record (the transform of its
extracted `hashtag_text`, `"#fyp"`), because the non-hashtag word
`song` is in the fitted vocabulary.  The claim's asserted equality of
inference and training text vectors is therefore false on the code. -/
theorem c3_inference_uses_raw_text :
    ∀ tr, preprocess_data c3TrainBatch = Except.ok tr →
      tr.vocab = ["fyp", "song"] ∧
      ∀ (clf : List (Option ℚ) → Bool) (idf : String → ℚ),
        idf "song" ≠ 0 → ∀ duration waktu,
        (predictContentFeatures ⟨clf, tr.vocab, idf, tr.leNameClasses,
            tr.leMusicClasses⟩ "great song #fyp" "alice" "m1" duration
            waktu).take tr.vocab.length =
          (tfidfTransform tr.vocab idf "great song #fyp").map some ∧
        tfidfTransform tr.vocab idf "great song #fyp" ≠
          tfidfTransform tr.vocab idf (hashtagsStr "great song #fyp") := by
  intro tr h
  have hc3 : preprocess_data c3TrainBatch = Except.ok c3Train := by decide
  rw [hc3] at h
  injection h with h
  subst h
  have hvocab : c3Train.vocab = ["fyp", "song"] := by decide
  refine ⟨hvocab, ?_⟩
  intro clf idf hidf duration waktu
  constructor
  · have hlen : ((tfidfTransform c3Train.vocab idf
        "great song #fyp").map some).length = c3Train.vocab.length := by
      rw [List.length_map, tfidfTransform_length]
    simp only [predictContentFeatures]
    exact List.take_left' hlen
  · intro heq
    rw [hvocab] at heq
    have hs : hashtagsStr "great song #fyp" = "#fyp" := by decide
    rw [hs] at heq
    simp only [tfidfTransform, List.map_cons, List.map_nil,
      List.cons.injEq, and_true] at heq
    obtain ⟨-, h2⟩ := heq
    have e1 : (sklearnTokenize "great song #fyp").count "song" = 1 := by
      decide
    have e0 : (sklearnTokenize "#fyp").count "song" = 0 := by decide
    rw [e1, e0] at h2
    apply hidf
    simpa using h2

/-- Witness for C3 at the positive idf factor 1: the raw-text vector and
the hashtag-text vector of the same record differ. -/
theorem c3_raw_text_witness :
    tfidfTransform c3Train.vocab (fun _ => 1) "great song #fyp" ≠
      tfidfTransform c3Train.vocab (fun _ => 1)
        (hashtagsStr "great song #fyp") :=
  ((c3_inference_uses_raw_text c3Train (by decide)).2
    (fun _ => false) (fun _ => 1) one_ne_zero 0 ⟨0, 0, 0⟩).2

/-- Corpus of 100 distinct two-letter tokens, one per document. -/
def c5BigCorpus : List String :=
  (List.range 100).map (fun i =>
    String.mk [Char.ofNat (97 + i / 10), Char.ofNat (97 + i % 10)])

/-- Claim C5 as amended: the assembled feature row has the same width and
column order at inference as at fitting — the vectorizer block of width
equal to the fitted vocabulary size first, then the dense block
`[author_code, music_code, duration, hour, minute, second, text_length]`
of width 7 in that fixed order on both paths; the fitted vocabulary size
is the number of distinct hashtag tokens of the fitting corpus capped at
100 (`max_features=100`), so the total width is 107 exactly when the
corpus has at least 100 distinct tokens. -/
theorem c5_column_stability :
    (∀ vocab idf (r : DerivedRow),
      (trainRowFeatures vocab idf r).length = vocab.length + 7 ∧
      (trainRowFeatures vocab idf r).drop vocab.length =
        [(r.authorEncoded : ℚ), (r.musicEncoded : ℚ), r.row.duration,
          (r.hour : ℚ), (r.minute : ℚ), (r.second : ℚ),
          (r.textLength : ℚ)]) ∧
    (∀ a text author music duration waktu,
      (predictContentFeatures a text author music duration waktu).length =
        a.vocab.length + 7 ∧
      (predictContentFeatures a text author music duration waktu).drop
          a.vocab.length =
        [some ((encodeSafe a.leNameClasses author : ℤ) : ℚ),
          some ((encodeSafe a.leMusicClasses music : ℤ) : ℚ),
          some duration, some (waktu.hour : ℚ), some (waktu.minute : ℚ),
          some (waktu.second : ℚ), some ((text.length : ℕ) : ℚ)]) ∧
    (∀ corpus, (tfidfVocabFit corpus).length =
      min ((corpus.map sklearnTokenize).flatten.dedup.length) 100) ∧
    (∀ corpus, 100 ≤ (corpus.map sklearnTokenize).flatten.dedup.length →
      (tfidfVocabFit corpus).length + 7 = 107) := by
  refine ⟨?_, ?_, tfidfVocabFit_length, ?_⟩
  · intro vocab idf r
    constructor
    · simp [trainRowFeatures, tfidfTransform_length]
    · have hlen : (tfidfTransform vocab idf r.hashtagsText).length =
          vocab.length := tfidfTransform_length vocab idf r.hashtagsText
      simp only [trainRowFeatures]
      exact List.drop_left' hlen
  · intro a text author music duration waktu
    constructor
    · simp [predictContentFeatures, tfidfTransform_length]
    · have hlen : ((tfidfTransform a.vocab a.idf text).map some).length =
          a.vocab.length := by
        rw [List.length_map, tfidfTransform_length]
      simp only [predictContentFeatures]
      exact List.drop_left' hlen
  · intro corpus hge
    rw [tfidfVocabFit_length]
    omega

set_option maxRecDepth 40000 in
/-- Witness for C5: on a corpus with (exactly) 100 distinct tokens the
assembled width is 107. -/
theorem c5_column_witness :
    (tfidfVocabFit c5BigCorpus).length + 7 = 107 :=
  c5_column_stability.2.2.2 c5BigCorpus (by decide)

/-- Counterexample to C5 as stated: fitted on a corpus with two distinct
hashtag tokens, the assembled row (training and single-record inference
alike) has 2 + 7 = 9 columns, not 107. -/
theorem c5_width_counterexample :
    (predictContentFeatures ⟨fun _ => false, c5Train.vocab, fun _ => 1,
        c5Train.leNameClasses, c5Train.leMusicClasses⟩ "x" "y" "z" 1
        ⟨0, 0, 0⟩).length = 9 ∧
    (train_features (fun _ => 1) c5Train).map List.length = [9] ∧
    (9 : ℕ) ≠ 107 :=
  ⟨by decide, by decide, by decide⟩

theorem colGet_map (f : α → β) (l : List α) (i : ℕ) (d : β) (d2 : α)
    (hi : i < l.length) :
    colGet (l.map f) i d = f (colGet l i d2) := by
  simp [colGet, List.get?_eq_getElem?, List.getElem?_map,
    List.getElem?_eq_getElem hi]

theorem colGet_range {n i : ℕ} (hi : i < n) (d : ℕ) :
    colGet (List.range n) i d = i := by
  simp [colGet, List.get?_eq_getElem?, List.getElem?_range hi]

/-- Claim C4 as amended: bulk inference labels every one of the K input
rows, in input order — the status column is the display label of the
classifier's answer on row i's features for each i < K and has exactly K
entries; a row whose timestamp does not parse is not dropped, but its
hour, minute and second features are the missing-value marker `NaN`
(embedded `none`), not zero. -/
theorem c4_bulk_row_count :
    ∀ (a : Artifacts) (df : BulkFrame), df.WF →
      ((predict_bulk a df).statusPopularitas =
        some (((bulkFeatureRows a df).map a.clf).map bulkDisplayLabel)) ∧
      ((((bulkFeatureRows a df).map a.clf).map bulkDisplayLabel).length =
        df.text.length) ∧
      ((bulkFeatureRows a df).length = df.text.length) ∧
      (∀ rawCol i, df.createTimeISO = Sum.inl rawCol →
        i < df.text.length →
        parseTimeISO (colGet rawCol i "") = none →
        ∃ e0 e1 e2 e6, (colGet (bulkFeatureRows a df) i []).drop
            a.vocab.length =
          [e0, e1, e2, none, none, none, e6]) := by
  intro a df hwf
  refine ⟨by simp [predict_bulk], ?_, ?_, ?_⟩
  · simp [bulkFeatureRows]
  · simp [bulkFeatureRows]
  · intro rawCol i hraw hi hparse
    have hrawlen : rawCol.length = df.text.length := by
      have h4 := hwf.2.2.2
      rw [hraw] at h4
      exact h4
    have hiK : i < (df.text.map (fun t => t.getD "")).length := by
      rw [List.length_map]; exact hi
    have hirange : i < (df.text.map (fun t => t.getD "")).length := hiK
    simp only [bulkFeatureRows]
    rw [colGet_map _ _ i [] 0 (by simpa using hi), colGet_range
      (by simpa using hi) 0]
    have hlen1 : ((colGet ((df.text.map (fun t => t.getD "")).map
        (tfidfTransform a.vocab a.idf)) i []).map some).length =
        a.vocab.length := by
      rw [colGet_map _ _ i [] "" hiK, List.length_map,
        tfidfTransform_length]
    have hhour : colGet ((toDatetimeCoerceCol df.createTimeISO).map
        (Option.map PDTimestamp.hour)) i none = none := by
      rw [hraw]
      show colGet ((pdToDatetimeCoerce rawCol).map
        (Option.map PDTimestamp.hour)) i none = none
      unfold pdToDatetimeCoerce
      rw [colGet_map _ _ i none none (by
        rw [List.length_map, hrawlen]; exact hi)]
      rw [colGet_map _ _ i none "" (by rw [hrawlen]; exact hi)]
      rw [hparse]
      rfl
    have hminute : colGet ((toDatetimeCoerceCol df.createTimeISO).map
        (Option.map PDTimestamp.minute)) i none = none := by
      rw [hraw]
      show colGet ((pdToDatetimeCoerce rawCol).map
        (Option.map PDTimestamp.minute)) i none = none
      unfold pdToDatetimeCoerce
      rw [colGet_map _ _ i none none (by
        rw [List.length_map, hrawlen]; exact hi)]
      rw [colGet_map _ _ i none "" (by rw [hrawlen]; exact hi)]
      rw [hparse]
      rfl
    have hsecond : colGet ((toDatetimeCoerceCol df.createTimeISO).map
        (Option.map PDTimestamp.second)) i none = none := by
      rw [hraw]
      show colGet ((pdToDatetimeCoerce rawCol).map
        (Option.map PDTimestamp.second)) i none = none
      unfold pdToDatetimeCoerce
      rw [colGet_map _ _ i none none (by
        rw [List.length_map, hrawlen]; exact hi)]
      rw [colGet_map _ _ i none "" (by rw [hrawlen]; exact hi)]
      rw [hparse]
      rfl
    rw [List.drop_left' hlen1, hhour, hminute, hsecond]
    simp only [Option.map_none']
    exact ⟨_, _, _, _, rfl⟩

/-- Witness for C4 on the concrete unparseable-timestamp frame: the single
row still gets a status label, and its temporal features are `NaN`. -/
theorem c4_row_count_witness :
    ((predict_bulk c4Artifacts c4Frame).statusPopularitas =
      some (((bulkFeatureRows c4Artifacts c4Frame).map c4Artifacts.clf).map
        bulkDisplayLabel)) ∧
    ∃ e0 e1 e2 e6, (colGet (bulkFeatureRows c4Artifacts c4Frame) 0 []).drop
        c4Artifacts.vocab.length = [e0, e1, e2, none, none, none, e6] := by
  have h := c4_bulk_row_count c4Artifacts c4Frame (by decide)
  exact ⟨h.1, h.2.2.2 ["not a timestamp"] 0 rfl (by decide) (by decide)⟩

/-- Counterexample to C4 as stated: on the concrete bulk frame whose one
timestamp is unparseable, the derived hour column holds `NaN` (`none`),
not the claimed zero-fill; the hour feature of that row is `none`, and
`NaN` is not `0`. -/
theorem c4_zero_fill_counterexample :
    (predict_bulk c4Artifacts c4Frame).hour = some [none] ∧
    (colGet (bulkFeatureRows c4Artifacts c4Frame) 0 []).get? 4 =
      some none ∧
    (none : Option ℚ) ≠ some 0 :=
  ⟨by decide, by decide, by decide⟩

/-- Claim C9 as amended: at bulk inference an unparseable timestamp is
coerced to `NaT` and the derived hour, minute and second entries of that
row are the missing-value marker (`none`) — the row is not dropped and
the batch does not fail (no `day_of_week` is derived on this path); but
the training path calls `to_datetime` with its default raising
behaviour, so a record that survives `dropna` with an unparseable
timestamp string makes `preprocess_data` raise instead of being
excluded. -/
theorem c9_unparseable_timestamps :
    (∀ (a : Artifacts) (df : BulkFrame) rawCol i,
      df.createTimeISO = Sum.inl rawCol → i < rawCol.length →
      parseTimeISO (colGet rawCol i "") = none →
      ∃ hourCol minuteCol secondCol,
        (predict_bulk a df).hour = some hourCol ∧
        (predict_bulk a df).minute = some minuteCol ∧
        (predict_bulk a df).second = some secondCol ∧
        hourCol.get? i = some none ∧ minuteCol.get? i = some none ∧
        secondCol.get? i = some none) ∧
    (∀ input r, r ∈ dropna input →
      parseTimeISO r.createTimeISO = none →
      ∃ e, preprocess_data input = Except.error e) := by
  constructor
  · intro a df rawCol i hraw hi hparse
    refine ⟨(toDatetimeCoerceCol df.createTimeISO).map
        (Option.map PDTimestamp.hour),
      (toDatetimeCoerceCol df.createTimeISO).map
        (Option.map PDTimestamp.minute),
      (toDatetimeCoerceCol df.createTimeISO).map
        (Option.map PDTimestamp.second),
      by simp [predict_bulk], by simp [predict_bulk],
      by simp [predict_bulk], ?_, ?_, ?_⟩
    all_goals
      rw [hraw]
      simp only [toDatetimeCoerceCol]
      unfold pdToDatetimeCoerce
      rw [List.get?_eq_getElem?, List.getElem?_map, List.getElem?_map,
        List.getElem?_eq_getElem hi]
      have hcg : rawCol[i] = colGet rawCol i "" := by
        simp [colGet, List.get?_eq_getElem?, List.getElem?_eq_getElem hi]
      rw [Option.map_some', Option.map_some', hcg, hparse]
      rfl
  · intro input r hr hparse
    have hmem : r.createTimeISO ∈
        (dropna input).map (fun x => x.createTimeISO) :=
      List.mem_map_of_mem _ hr
    obtain ⟨e, he⟩ := pdToDatetimeStrict_error_of_mem hmem hparse
    refine ⟨e, ?_⟩
    simp only [preprocess_data]
    rw [he]

/-- Witness for C9: the concrete training batch with one bad timestamp
makes preprocessing raise, and the concrete bulk frame with one bad
timestamp gets `NaN` markers for all three derived temporal columns. -/
theorem c9_unparseable_witness :
    (∃ e, preprocess_data c9Batch = Except.error e) ∧
    (∃ hourCol minuteCol secondCol,
      (predict_bulk c4Artifacts c4Frame).hour = some hourCol ∧
      (predict_bulk c4Artifacts c4Frame).minute = some minuteCol ∧
      (predict_bulk c4Artifacts c4Frame).second = some secondCol ∧
      hourCol.get? 0 = some none ∧ minuteCol.get? 0 = some none ∧
      secondCol.get? 0 = some none) :=
  ⟨c9_unparseable_timestamps.2 c9Batch
      ⟨"y", "bob", "m2", 5, "31/02/banana", 2, 2, 2, 2⟩
      (by decide) (by decide),
   c9_unparseable_timestamps.1 c4Artifacts c4Frame ["not a timestamp"] 0
     rfl (by decide) (by decide)⟩

/-- Counterexample to C9 as stated: on the concrete batch `c9Batch`, the
unparseable-timestamp record survives `dropna` (both rows do), and the
training preprocessing raises the parser error instead of excluding the
record and succeeding. -/
theorem c9_training_raise_counterexample :
    preprocess_data c9Batch =
      Except.error "Unknown datetime string format: 31/02/banana" ∧
    exceptOk? (preprocess_data c9Batch) = none ∧
    (dropna c9Batch).length = 2 :=
  ⟨by decide, by decide, by decide⟩
